import Mathlib

/-!
Verification development for the audio-chunking transcription pipeline
(`singaji_setu_agent`): a shallow embedding of the chunk splitter
(`utils/audio_processor.py`), the chunked-transcription orchestrator
(`services/transcription_service.py`), the recording pause/resume state
machine (`app.py`), the live-streaming transcript accumulator
(`ui/live_tab.py`), the streaming sentinel protocol
(`ui/live_tab.py` / `services/streaming_transcription_service.py`),
and the live recorder (`utils/live_recorder.py`), together with proofs
of the spec-level properties of these components.

Conventions: audio durations are modelled in integer milliseconds (pydub
slices and measures `AudioSegment`s in whole milliseconds); wall-clock
times are rationals (Python floats stand in for reals); byte blobs and
PCM sample buffers are lists of integers.
-/

namespace AudioProcessor

/-- Round-half-even of `ms / 100`: the tenths-of-a-second digit stream that
Python's `"{x:.1f}"` format produces for the exact value `ms / 1000`. -/
def tenthsOf (ms : Nat) : Nat :=
  let d := ms / 100
  let r := ms % 100
  if r < 50 then d
  else if 50 < r then d + 1
  else if d % 2 = 0 then d else d + 1

/-- `"{x:.1f}"` for the second-valued quantity `ms / 1000`. -/
def fmtSec (ms : Nat) : String :=
  toString (tenthsOf ms / 10) ++ "." ++ toString (tenthsOf ms % 10)

/-- The `time_label = f"{start_time_s:.1f}s - {end_time_s:.1f}s"` string of
`process_audio_and_chunk`, with both endpoints given in milliseconds. -/
def timeLabel (startMs endMs : Nat) : String :=
  fmtSec startMs ++ "s - " ++ fmtSec endMs ++ "s"

/-- One element of the list returned by `process_audio_and_chunk`: the chunk
`audio[startMs : startMs + lenMs]` (its exported WAV payload is determined by
the slice, so we record the slice bounds) together with its time label. -/
structure Chunk where
  startMs : Nat
  lenMs : Nat
  label : String
  deriving Repr, DecidableEq

/-- Python `range(0, stop, step)` for `step > 0`: the multiples of `step`
below `stop`. -/
def pyRange (stop step : Nat) : List Nat :=
  (List.range ((stop + step - 1) / step)).map (· * step)

/-- Shallow embedding of `process_audio_and_chunk` (utils/audio_processor.py,
lines 9-44).  The input is the decoded audio: `none` when
`AudioSegment.from_file` fails (the `except` branch returns `None`), `some n`
when it yields an `n`-millisecond mono segment.  For `chunkLenS = 0` the
Python `range(0, len(audio), 0)` raises `ValueError`, which the same `except`
branch converts to `None`.  Each slice `audio[i : i + chunk_length_ms]` has
length `min chunk_length_ms (n - i)`, and its label is computed from
`start_time_s = (idx * chunk_length_ms) / 1000` and
`end_time_s = start_time_s + len(chunk) / 1000`. -/
def process_audio_and_chunk (decoded : Option Nat) (chunkLenS : Nat) :
    Option (List Chunk) :=
  match decoded with
  | none => none
  | some n =>
    if chunkLenS = 0 then none
    else
      let cms := chunkLenS * 1000
      some <| (pyRange n cms).map fun s =>
        let len := min cms (n - s)
        { startMs := s, lenMs := len, label := timeLabel s (s + len) }

/-- The number of chunks the splitter produces from `n` ms of audio with a
chunk length of `cms` ms: `⌈n / cms⌉`. -/
def numChunks (n cms : Nat) : Nat := (n + cms - 1) / cms

/-- The `i`-th chunk of `n` ms of audio split every `cms` ms. -/
def mkChunk (n cms i : Nat) : Chunk :=
  { startMs := i * cms, lenMs := min cms (n - i * cms),
    label := timeLabel (i * cms) (i * cms + min cms (n - i * cms)) }

/-- Closed form for the full chunk list. -/
def chunksList (n cms : Nat) : List Chunk :=
  (List.range (numChunks n cms)).map (mkChunk n cms)

theorem chunks_eq (n L : Nat) (hL : L ≠ 0) :
    process_audio_and_chunk (some n) L = some (chunksList n (L * 1000)) := by
  simp [process_audio_and_chunk, hL, pyRange, chunksList, numChunks, List.map_map]
  intro a _
  simp [mkChunk, Function.comp]

theorem chunksList_length (n cms : Nat) :
    (chunksList n cms).length = numChunks n cms := by
  simp [chunksList]

theorem chunksList_getElem (n cms i : Nat) :
    (chunksList n cms)[i]? = if i < numChunks n cms then some (mkChunk n cms i) else none := by
  by_cases h : i < numChunks n cms
  · simp [chunksList, h]
  · simp [chunksList, h]
    omega

theorem numChunks_mul_ge (n cms : Nat) (hc : 0 < cms) : n ≤ numChunks n cms * cms := by
  have hB2 : n + cms - 1 < (numChunks n cms + 1) * cms :=
    (Nat.div_lt_iff_lt_mul hc).mp (Nat.lt_succ_self _)
  rw [add_one_mul] at hB2
  omega

theorem numChunks_mul_lt (n cms : Nat) (hc : 0 < cms) : numChunks n cms * cms < n + cms := by
  have hB1 : numChunks n cms * cms ≤ n + cms - 1 := Nat.div_mul_le_self _ _
  omega

theorem len_inner (n cms i : Nat) (hc : 0 < cms) (h : i + 1 < numChunks n cms) :
    min cms (n - i * cms) = cms := by
  have hB1 : numChunks n cms * cms ≤ n + cms - 1 := Nat.div_mul_le_self _ _
  have him : (i + 2) * cms ≤ numChunks n cms * cms := Nat.mul_le_mul_right cms (by omega)
  have hexp : (i + 2) * cms = i * cms + 2 * cms := by ring
  exact min_eq_left (by omega)

theorem last_end (n cms : Nat) (hc : 0 < cms) :
    (numChunks n cms - 1) * cms + min cms (n - (numChunks n cms - 1) * cms) = n := by
  have hB1 : numChunks n cms * cms ≤ n + cms - 1 := Nat.div_mul_le_self _ _
  have hge := numChunks_mul_ge n cms hc
  have hsub : (numChunks n cms - 1) * cms = numChunks n cms * cms - cms := by
    rw [Nat.sub_mul, one_mul]
  rw [hsub]
  have h1 : n - (numChunks n cms * cms - cms) ≤ cms := by omega
  rw [min_eq_right h1]
  omega

theorem sum_min_range (cms : Nat) (hc : 0 < cms) :
    ∀ n : Nat, ((List.range (numChunks n cms)).map (fun i => min cms (n - i * cms))).sum = n := by
  intro n
  induction n using Nat.strong_induction_on with
  | _ n ih =>
    rcases Nat.eq_zero_or_pos n with h0 | hpos
    · subst h0
      have : numChunks 0 cms = 0 := Nat.div_eq_of_lt (by omega)
      simp [this]
    · have hq : numChunks n cms = (n - 1) / cms + 1 := by
        have h1 : n + cms - 1 = (n - 1) + cms := by omega
        rw [numChunks, h1, Nat.add_div_right _ hc]
      rw [hq, List.range_succ_eq_map, List.map_cons, List.map_map, List.sum_cons]
      rcases le_or_lt n cms with hle | hlt
      · have hq0 : (n - 1) / cms = 0 := Nat.div_eq_of_lt (by omega)
        simp [hq0]
        omega
      · have hm : n - cms < n := by omega
        have hq2 : (n - 1) / cms = numChunks (n - cms) cms := by
          rw [numChunks]; congr 1; omega
        have htail : ((List.range ((n - 1) / cms)).map ((fun i => min cms (n - i * cms)) ∘ Nat.succ))
            = (List.range (numChunks (n - cms) cms)).map (fun i => min cms ((n - cms) - i * cms)) := by
          rw [hq2]
          apply List.map_congr_left
          intro a _
          simp [Function.comp]
          have hsm : (a + 1) * cms = a * cms + cms := by ring
          rw [hsm]
          congr 1
          omega
        rw [htail, ih _ hm]
        omega

/-- Claim C2: for every decodable buffer of `n` milliseconds and every chunk
length `L > 0` seconds, `process_audio_and_chunk` succeeds and yields exactly
`⌈n / 1000L⌉` chunks (the two inequalities pin this count down as the ceiling
of the duration divided by the chunk length); every chunk but the last lasts
exactly `L` seconds; the durations sum to the whole buffer; chunk `i` starts
at `i·L` seconds, consecutive chunks are contiguous (hence non-overlapping
and in original temporal order), the last chunk ends at the end of the
buffer, and each chunk's time label is the `"{start:.1f}s - {end:.1f}s"`
string for its own position within the original buffer. -/
theorem chunk_splitter_correct (n L : Nat) (hL : 0 < L) :
    ∃ chunks : List Chunk,
      process_audio_and_chunk (some n) L = some chunks ∧
      chunks.length = (n + L * 1000 - 1) / (L * 1000) ∧
      n ≤ chunks.length * (L * 1000) ∧
      chunks.length * (L * 1000) < n + L * 1000 ∧
      (∀ (i : Nat) (c : Chunk), chunks[i]? = some c → i + 1 < chunks.length →
        c.lenMs = L * 1000) ∧
      (chunks.map Chunk.lenMs).sum = n ∧
      (∀ (i : Nat) (c : Chunk), chunks[i]? = some c → c.startMs = i * (L * 1000)) ∧
      (∀ (i : Nat) (c c2 : Chunk), chunks[i]? = some c → chunks[i + 1]? = some c2 →
        c2.startMs = c.startMs + c.lenMs) ∧
      (∀ c : Chunk, chunks[chunks.length - 1]? = some c → c.startMs + c.lenMs = n) ∧
      (∀ (i : Nat) (c : Chunk), chunks[i]? = some c →
        c.label = timeLabel c.startMs (c.startMs + c.lenMs)) := by
  have hc : 0 < L * 1000 := by positivity
  refine ⟨chunksList n (L * 1000), chunks_eq n L (by omega), ?_, ?_, ?_, ?_, ?_, ?_, ?_, ?_, ?_⟩
  · rw [chunksList_length]; rfl
  · rw [chunksList_length]; exact numChunks_mul_ge n _ hc
  · rw [chunksList_length]; exact numChunks_mul_lt n _ hc
  · intro i c hget hlt
    rw [chunksList_length] at hlt
    rw [chunksList_getElem, if_pos (by omega)] at hget
    cases hget
    exact len_inner n _ i hc hlt
  · rw [chunksList, List.map_map]
    have hcomp : (Chunk.lenMs ∘ mkChunk n (L * 1000))
        = fun i => min (L * 1000) (n - i * (L * 1000)) := by
      funext i; simp [mkChunk, Function.comp]
    rw [hcomp]
    exact sum_min_range _ hc n
  · intro i c hget
    have hi : i < (chunksList n (L * 1000)).length := (List.getElem?_eq_some.mp hget).1
    rw [chunksList_length] at hi
    rw [chunksList_getElem, if_pos hi] at hget
    cases hget
    rfl
  · intro i c c2 hget hget2
    have hi2 : i + 1 < (chunksList n (L * 1000)).length := (List.getElem?_eq_some.mp hget2).1
    rw [chunksList_length] at hi2
    rw [chunksList_getElem, if_pos (by omega)] at hget
    rw [chunksList_getElem, if_pos hi2] at hget2
    cases hget
    cases hget2
    show (i + 1) * (L * 1000) = i * (L * 1000) + min (L * 1000) (n - i * (L * 1000))
    rw [len_inner n _ i hc hi2, add_one_mul]
  · intro c hget
    have hi : (chunksList n (L * 1000)).length - 1 < (chunksList n (L * 1000)).length :=
      (List.getElem?_eq_some.mp hget).1
    rw [chunksList_length] at hi
    rw [chunksList_length, chunksList_getElem, if_pos hi] at hget
    cases hget
    exact last_end n _ hc
  · intro i c hget
    have hi : i < (chunksList n (L * 1000)).length := (List.getElem?_eq_some.mp hget).1
    rw [chunksList_length] at hi
    rw [chunksList_getElem, if_pos hi] at hget
    cases hget
    rfl

/-- Witness for `chunk_splitter_correct`: the spec's end-to-end scenario, a
125-second buffer split every 59 seconds. -/
theorem chunk_splitter_correct_witness :
    0 < 59 ∧
    (∃ chunks : List Chunk,
      process_audio_and_chunk (some 125000) 59 = some chunks ∧
      chunks.length = (125000 + 59 * 1000 - 1) / (59 * 1000) ∧
      125000 ≤ chunks.length * (59 * 1000) ∧
      chunks.length * (59 * 1000) < 125000 + 59 * 1000 ∧
      (∀ (i : Nat) (c : Chunk), chunks[i]? = some c → i + 1 < chunks.length →
        c.lenMs = 59 * 1000) ∧
      (chunks.map Chunk.lenMs).sum = 125000 ∧
      (∀ (i : Nat) (c : Chunk), chunks[i]? = some c → c.startMs = i * (59 * 1000)) ∧
      (∀ (i : Nat) (c c2 : Chunk), chunks[i]? = some c → chunks[i + 1]? = some c2 →
        c2.startMs = c.startMs + c.lenMs) ∧
      (∀ c : Chunk, chunks[chunks.length - 1]? = some c → c.startMs + c.lenMs = 125000) ∧
      (∀ (i : Nat) (c : Chunk), chunks[i]? = some c →
        c.label = timeLabel c.startMs (c.startMs + c.lenMs))) :=
  ⟨by decide, chunk_splitter_correct 125000 59 (by decide)⟩

/-- Claim C7: a decodable zero-duration input splits into an empty chunk
list, not `None`. -/
theorem zero_length_buffer_splits_empty (L : Nat) (hL : 0 < L) :
    process_audio_and_chunk (some 0) L = some [] := by
  rw [chunks_eq 0 L (by omega)]
  have h0 : numChunks 0 (L * 1000) = 0 := Nat.div_eq_of_lt (by omega)
  simp [chunksList, h0]

/-- Witness for `zero_length_buffer_splits_empty` at the default chunk length
`MAX_SYNC_DURATION_SECONDS = 59`. -/
theorem zero_length_buffer_splits_empty_witness :
    0 < 59 ∧ process_audio_and_chunk (some 0) 59 = some [] :=
  ⟨by decide, zero_length_buffer_splits_empty 59 (by decide)⟩

end AudioProcessor

namespace TranscriptionService

/-- The externally observable outcome of the collaborator calls made for one
chunk inside the loop of `transcribe_chunks`
(services/transcription_service.py, lines 94-160): whether `_upload_to_gcs`
succeeds, the recognizer's answer (`some results` means
`long_running_recognize(...).result()` returned a response whose results
carry these `alternatives[0].transcript` strings; `none` means the call
raised), and whether the `blob.delete()` cleanup call succeeds. -/
structure ChunkOutcome where
  uploadOk : Bool
  recognized : Option (List String)
  deleteOk : Bool
  deriving Repr, DecidableEq

/-- Python `" ".join(parts)`. -/
def joinSpace (parts : List String) : String := String.intercalate " " parts

/-- The per-chunk failure placeholder the code appends,
`f"[Chunk i+1 failed to transcribe]"` for zero-based loop index `i`. -/
def placeholder (i : Nat) : String :=
  "[Chunk " ++ toString (i + 1) ++ " failed to transcribe]"

/-- One iteration of the `for` loop of `transcribe_chunks` for the chunk at
zero-based index `i`: the entry appended to `full_transcript_parts` (`none`
when the iteration appends nothing) paired with whether the staged GCS blob
was released.  This mirrors the source control flow: a failed upload hits
`continue` (nothing appended, nothing staged, so nothing to release); a
successful upload followed by a successful recognition appends the joined
transcript and then reaches the `blob.delete()` call, whose own failure is
swallowed by `except Exception: pass`; a raising recognition is caught by
the inner `except`, appends the placeholder, and never reaches the delete
call. -/
def processChunk (i : Nat) (o : ChunkOutcome) : Option String × Bool :=
  if o.uploadOk = false then (none, false)
  else
    match o.recognized with
    | some results => (some (joinSpace results), o.deleteOk)
    | none => (some (placeholder i), false)

/-- `full_transcript_parts` as accumulated by the loop over the chunks whose
outcomes are listed, the first having loop index `i`. -/
def transcriptPartsFrom (i : Nat) : List ChunkOutcome → List String
  | [] => []
  | o :: rest =>
    match (processChunk i o).1 with
    | some s => s :: transcriptPartsFrom (i + 1) rest
    | none => transcriptPartsFrom (i + 1) rest

/-- `full_transcript_parts` at the end of the loop of `transcribe_chunks`. -/
def fullTranscriptParts (outcomes : List ChunkOutcome) : List String :=
  transcriptPartsFrom 0 outcomes

/-- The `st.session_state.performance_metrics` dictionary. -/
structure Metrics where
  total_time : ℚ
  chunks_processed : Nat
  deriving Repr, DecidableEq

/-- What a run of `transcribe_chunks` leaves behind: its return value and the
metrics it wrote (`none` = `st.session_state.performance_metrics` was not
written by this run). -/
structure RunResult where
  transcript : Option String
  metrics : Option Metrics
  deriving Repr, DecidableEq

/-- Shallow embedding of `TranscriptionService.transcribe_chunks`
(services/transcription_service.py, lines 80-178).  `clientsOk` is whether
both cloud clients were initialized (otherwise the method returns `None` at
once, writing nothing).  `abortAfter = some k` models a non-recoverable
exception raised outside the per-chunk `try` scopes (e.g. in the dashboard
update) after `k` chunks have been processed; the outer `except` catches it
and returns `" ".join(full_transcript_parts)` when any part was accumulated
and `None` otherwise, without touching the metrics.  `abortAfter = none` is
a run that reaches the end of the loop: it joins all parts and writes
`performance_metrics = dict(total_time, chunks_processed=len(audio_chunks))`. -/
def transcribe_chunks (clientsOk : Bool) (outcomes : List ChunkOutcome)
    (abortAfter : Option Nat) (totalTime : ℚ) : RunResult :=
  if clientsOk = false then { transcript := none, metrics := none }
  else
    match abortAfter with
    | none =>
      { transcript := some (joinSpace (fullTranscriptParts outcomes)),
        metrics := some { total_time := totalTime, chunks_processed := outcomes.length } }
    | some k =>
      let parts := fullTranscriptParts (outcomes.take k)
      { transcript := if parts.isEmpty then none else some (joinSpace parts),
        metrics := none }

/-- The text the loop records for the chunk at loop index `i` once its upload
succeeded: the recognized text, or the placeholder. -/
def expectedPart (i : Nat) (o : ChunkOutcome) : String :=
  match o.recognized with
  | some results => joinSpace results
  | none => placeholder i

theorem transcriptPartsFrom_all_uploads (l : List ChunkOutcome) :
    ∀ i : Nat, (∀ o ∈ l, o.uploadOk = true) →
      (transcriptPartsFrom i l).length = l.length ∧
      (∀ (j : Nat) (o : ChunkOutcome), l[j]? = some o →
        (transcriptPartsFrom i l)[j]? = some (expectedPart (i + j) o)) := by
  induction l with
  | nil => intro i _; exact ⟨rfl, by intro j o h; simp at h⟩
  | cons hd tl ih =>
    intro i hall
    have hhd : hd.uploadOk = true := hall hd (by simp)
    have htl : ∀ o ∈ tl, o.uploadOk = true := fun o ho => hall o (by simp [ho])
    have hstep : transcriptPartsFrom i (hd :: tl)
        = expectedPart i hd :: transcriptPartsFrom (i + 1) tl := by
      simp only [transcriptPartsFrom, processChunk, hhd]
      cases hrec : hd.recognized <;> simp [expectedPart, hrec]
    obtain ⟨ihlen, ihget⟩ := ih (i + 1) htl
    constructor
    · rw [hstep]; simp [ihlen]
    · intro j o hj
      cases j with
      | zero =>
        simp at hj
        subst hj
        rw [hstep]
        simp
      | succ j =>
        simp at hj
        rw [hstep]
        have := ihget j o (by simpa using hj)
        simpa [Nat.add_assoc, Nat.add_comm 1 j] using this

/-- Counterexample to claim C1 as stated: with a single chunk whose
upload (staging) step fails, the loop hits `continue` and appends nothing, so
`full_transcript_parts` holds zero units rather than one placeholder, while
the recorded metrics still report `chunks_processed = 1`. -/
theorem upload_failure_drops_slot :
    (fullTranscriptParts [{ uploadOk := false, recognized := none, deleteOk := true }]).length
        = 0 ∧
    ([{ uploadOk := false, recognized := none, deleteOk := true }] : List ChunkOutcome).length
        = 1 ∧
    (transcribe_chunks true [{ uploadOk := false, recognized := none, deleteOk := true }]
        none 0).metrics = some { total_time := 0, chunks_processed := 1 } := by
  refine ⟨rfl, rfl, rfl⟩

/-- Claim C1 (amended): when every chunk's upload succeeds, a failing
transcription call for any chunk is isolated: the run continues, that
chunk's slot holds the placeholder string, the final parts list has exactly
one unit per chunk in the original order (recognized text, or the
placeholder), the returned transcript is their space-join, and the recorded
metrics report `chunks_processed = N`.  (A chunk whose upload fails is
instead skipped without recording any unit — see
`upload_failure_drops_slot`.) -/
theorem chunk_failure_isolated (outcomes : List ChunkOutcome) (t : ℚ)
    (h : ∀ o ∈ outcomes, o.uploadOk = true) :
    (fullTranscriptParts outcomes).length = outcomes.length ∧
    (∀ (i : Nat) (o : ChunkOutcome), outcomes[i]? = some o →
      (fullTranscriptParts outcomes)[i]? = some (expectedPart i o)) ∧
    (transcribe_chunks true outcomes none t).transcript
      = some (joinSpace (fullTranscriptParts outcomes)) ∧
    (transcribe_chunks true outcomes none t).metrics
      = some { total_time := t, chunks_processed := outcomes.length } := by
  obtain ⟨hlen, hget⟩ := transcriptPartsFrom_all_uploads outcomes 0 h
  refine ⟨hlen, ?_, rfl, rfl⟩
  intro i o hi
  simpa using hget i o hi

/-- Witness for `chunk_failure_isolated`: the spec's scenario where chunk 2
of 3 fails its transcription call. -/
theorem chunk_failure_isolated_witness :
    (fullTranscriptParts
        [{ uploadOk := true, recognized := some ["A"], deleteOk := true },
         { uploadOk := true, recognized := none, deleteOk := true },
         { uploadOk := true, recognized := some ["C"], deleteOk := true }]).length = 3 ∧
    (∀ (i : Nat) (o : ChunkOutcome),
      ([{ uploadOk := true, recognized := some ["A"], deleteOk := true },
        { uploadOk := true, recognized := none, deleteOk := true },
        { uploadOk := true, recognized := some ["C"], deleteOk := true }]
          : List ChunkOutcome)[i]? = some o →
      (fullTranscriptParts
        [{ uploadOk := true, recognized := some ["A"], deleteOk := true },
         { uploadOk := true, recognized := none, deleteOk := true },
         { uploadOk := true, recognized := some ["C"], deleteOk := true }])[i]?
        = some (expectedPart i o)) ∧
    (transcribe_chunks true
        [{ uploadOk := true, recognized := some ["A"], deleteOk := true },
         { uploadOk := true, recognized := none, deleteOk := true },
         { uploadOk := true, recognized := some ["C"], deleteOk := true }] none 7).transcript
      = some "A [Chunk 2 failed to transcribe] C" ∧
    (transcribe_chunks true
        [{ uploadOk := true, recognized := some ["A"], deleteOk := true },
         { uploadOk := true, recognized := none, deleteOk := true },
         { uploadOk := true, recognized := some ["C"], deleteOk := true }] none 7).metrics
      = some { total_time := 7, chunks_processed := 3 } :=
  chunk_failure_isolated
    [{ uploadOk := true, recognized := some ["A"], deleteOk := true },
     { uploadOk := true, recognized := none, deleteOk := true },
     { uploadOk := true, recognized := some ["C"], deleteOk := true }] 7 (by decide)

/-- Counterexample to claim C8 as stated: a chunk that is staged
successfully but whose transcription call fails never reaches the
`blob.delete()` call — the exception jumps straight to the inner `except`
handler — so the staged blob is not released even though deletion itself
would have succeeded. -/
theorem failed_chunk_leaks_blob :
    ({ uploadOk := true, recognized := none, deleteOk := true } : ChunkOutcome).uploadOk
        = true ∧
    (processChunk 0 { uploadOk := true, recognized := none, deleteOk := true }).2 = false := by
  refine ⟨rfl, rfl⟩

theorem transcriptPartsFrom_deleteOk (b : Bool) (l : List ChunkOutcome) :
    ∀ i : Nat,
      transcriptPartsFrom i (l.map fun o : ChunkOutcome => { o with deleteOk := b })
        = transcriptPartsFrom i l := by
  induction l with
  | nil => intro i; rfl
  | cons hd tl ih =>
    intro i
    simp only [List.map_cons, transcriptPartsFrom, processChunk]
    cases hup : hd.uploadOk
    · simp [ih (i + 1)]
    · cases hrec : hd.recognized <;> simp [hrec, ih (i + 1)]

/-- Claim C8 (amended): the staged blob of a chunk is released exactly when
that chunk's transcription call succeeds (and the delete call itself
succeeds); a chunk whose transcription call fails leaks its staged blob
(see `failed_chunk_leaks_blob`).  A failure of the cleanup step itself is
never propagated: flipping every chunk's `deleteOk` changes neither the
parts recorded for any chunk nor the result (transcript and metrics) of the
whole run. -/
theorem cleanup_only_on_success (i : Nat) (o : ChunkOutcome) (b clientsOk : Bool)
    (outcomes : List ChunkOutcome) (abortAfter : Option Nat) (t : ℚ)
    (hup : o.uploadOk = true) (hrec : o.recognized.isSome = true) :
    (processChunk i o).2 = o.deleteOk ∧
    (processChunk i { o with deleteOk := b }).1 = (processChunk i o).1 ∧
    transcribe_chunks clientsOk (outcomes.map fun x : ChunkOutcome => { x with deleteOk := b }) abortAfter t
      = transcribe_chunks clientsOk outcomes abortAfter t := by
  obtain ⟨results, hres⟩ := Option.isSome_iff_exists.mp hrec
  refine ⟨by simp [processChunk, hup, hres], by simp [processChunk, hup, hres], ?_⟩
  have hparts : ∀ l : List ChunkOutcome,
      fullTranscriptParts (l.map fun x : ChunkOutcome => { x with deleteOk := b }) = fullTranscriptParts l :=
    fun l => transcriptPartsFrom_deleteOk b l 0
  cases clientsOk
  · rfl
  · cases abortAfter with
    | none => simp [transcribe_chunks, hparts]
    | some k =>
      simp only [transcribe_chunks, ← List.map_take, hparts]

/-- Witness for `cleanup_only_on_success` at a concrete chunk outcome and a
concrete one-chunk run. -/
theorem cleanup_only_on_success_witness :
    (processChunk 0 { uploadOk := true, recognized := some ["A"], deleteOk := false }).2
        = false ∧
    (processChunk 0 { uploadOk := true, recognized := some ["A"], deleteOk := true }).1
      = (processChunk 0 { uploadOk := true, recognized := some ["A"], deleteOk := false }).1 ∧
    transcribe_chunks true
        ([{ uploadOk := true, recognized := none, deleteOk := false }].map
          fun x : ChunkOutcome => { x with deleteOk := true }) none 3
      = transcribe_chunks true
          [{ uploadOk := true, recognized := none, deleteOk := false }] none 3 :=
  cleanup_only_on_success 0
    { uploadOk := true, recognized := some ["A"], deleteOk := false } true true
    [{ uploadOk := true, recognized := none, deleteOk := false }] none 3 rfl rfl

/-- Counterexample to claim C9 as stated: a run aborted by a
non-recoverable error after one successful chunk does return the partial
transcript, but it does not populate the performance metrics — the
`except` branch returns without writing `st.session_state.performance_metrics`. -/
theorem aborted_run_skips_metrics :
    (transcribe_chunks true [{ uploadOk := true, recognized := some ["A"], deleteOk := true }]
        (some 1) 5).transcript = some "A" ∧
    (transcribe_chunks true [{ uploadOk := true, recognized := some ["A"], deleteOk := true }]
        (some 1) 5).metrics = none := by
  refine ⟨rfl, rfl⟩

/-- Claim C9 (amended): `transcribe_chunks` never raises past the caller:
when a non-recoverable error aborts the run after `k` chunks, it returns
the space-join of the parts accumulated so far when any part exists, and
`None` exactly when no part exists — and every aborted run, with or without
accumulated parts, leaves the performance metrics unpopulated; only a run
that completes its loop populates them (see `aborted_run_skips_metrics`). -/
theorem best_effort_return (outcomes : List ChunkOutcome) (k : Nat) (t : ℚ) :
    (fullTranscriptParts (outcomes.take k) ≠ [] →
      (transcribe_chunks true outcomes (some k) t).transcript
        = some (joinSpace (fullTranscriptParts (outcomes.take k)))) ∧
    (fullTranscriptParts (outcomes.take k) = [] →
      (transcribe_chunks true outcomes (some k) t).transcript = none) ∧
    (transcribe_chunks true outcomes (some k) t).metrics = none ∧
    (transcribe_chunks true outcomes none t).metrics
      = some { total_time := t, chunks_processed := outcomes.length } := by
  refine ⟨?_, ?_, rfl, rfl⟩
  · intro h
    simp [transcribe_chunks, List.isEmpty_iff, h]
  · intro h0
    simp [transcribe_chunks, List.isEmpty_iff, h0]

/-- Witness for `best_effort_return`: a two-chunk run aborted after its
first chunk exercises the parts-nonempty conjuncts; a one-chunk run whose
upload fails and which then aborts exercises the no-parts conjunct (it
returns `None`), and both leave the metrics unwritten. -/
theorem best_effort_return_witness :
    (transcribe_chunks true
        [{ uploadOk := true, recognized := some ["A"], deleteOk := true },
         { uploadOk := true, recognized := some ["B"], deleteOk := true }] (some 1) 5).transcript
      = some "A" ∧
    (transcribe_chunks true
        [{ uploadOk := false, recognized := none, deleteOk := true }] (some 1) 5).transcript
      = none ∧
    (transcribe_chunks true
        [{ uploadOk := true, recognized := some ["A"], deleteOk := true },
         { uploadOk := true, recognized := some ["B"], deleteOk := true }] (some 1) 5).metrics
      = none ∧
    (transcribe_chunks true
        [{ uploadOk := false, recognized := none, deleteOk := true }] (some 1) 5).metrics
      = none ∧
    (transcribe_chunks true
        [{ uploadOk := true, recognized := some ["A"], deleteOk := true },
         { uploadOk := true, recognized := some ["B"], deleteOk := true }] none 5).metrics
      = some { total_time := 5, chunks_processed := 2 } :=
  ⟨(best_effort_return
      [{ uploadOk := true, recognized := some ["A"], deleteOk := true },
       { uploadOk := true, recognized := some ["B"], deleteOk := true }] 1 5).1 (by decide),
   (best_effort_return
      [{ uploadOk := false, recognized := none, deleteOk := true }] 1 5).2.1 (by decide),
   (best_effort_return
      [{ uploadOk := true, recognized := some ["A"], deleteOk := true },
       { uploadOk := true, recognized := some ["B"], deleteOk := true }] 1 5).2.2.1,
   (best_effort_return
      [{ uploadOk := false, recognized := none, deleteOk := true }] 1 5).2.2.1,
   (best_effort_return
      [{ uploadOk := true, recognized := some ["A"], deleteOk := true },
       { uploadOk := true, recognized := some ["B"], deleteOk := true }] 1 5).2.2.2⟩

end TranscriptionService

namespace RecordingClock

/-- The recording-clock slice of `st.session_state` (app.py, lines 162-171):
`start_time` (`None` until the capture starts), the `paused` flag,
`paused_at` (`None` while not paused), and `total_paused`, the accumulated
pause duration in seconds.  Wall-clock instants are rationals standing in
for Python floats. -/
structure ClockState where
  start_time : Option ℚ
  paused : Bool
  paused_at : Option ℚ
  total_paused : ℚ
  deriving Repr, DecidableEq

/-- Shallow embedding of `get_elapsed_time` (app.py, lines 546-557), as a
function of the state and of `now = time.time()`. -/
def get_elapsed_time (s : ClockState) (now : ℚ) : ℚ :=
  let base : ℚ :=
    match s.start_time with
    | none => 0
    | some st =>
      let b := now - st - s.total_paused
      if s.paused then
        match s.paused_at with
        | some p => b - (now - p)
        | none => b
      else b
  max base 0

/-- Shallow embedding of `toggle_recording_pause` (app.py, lines 560-572) at
wall-clock instant `now`. -/
def toggle_recording_pause (s : ClockState) (now : ℚ) : ClockState :=
  if s.paused = false then
    { s with paused := true, paused_at := some now }
  else
    { start_time := s.start_time
      paused := false
      paused_at := none
      total_paused :=
        s.total_paused +
          match s.paused_at with
          | some p => now - p
          | none => 0 }

/-- The state right after `webrtc_ctx.state.playing` first becomes true at
instant `t0` (app.py, lines 162-171 and 239-240): session defaults with
`start_time = t0`. -/
def startState (t0 : ℚ) : ClockState :=
  { start_time := some t0, paused := false, paused_at := none, total_paused := 0 }

/-- The state after a sequence of pause/resume button presses at the listed
wall-clock instants. -/
def runToggles (s : ClockState) : List ℚ → ClockState
  | [] => s
  | t :: rest => runToggles (toggle_recording_pause s t) rest

theorem runToggles_invariant (ts : List ℚ) :
    ∀ s : ClockState, (s.paused = true → s.paused_at.isSome = true) →
      ((runToggles s ts).paused = true → (runToggles s ts).paused_at.isSome = true) := by
  induction ts with
  | nil => intro s h; exact h
  | cons t rest ih =>
    intro s h
    apply ih
    intro hp
    by_cases hsp : s.paused = false
    · simp [toggle_recording_pause, hsp]
    · simp only [Bool.not_eq_false] at hsp
      simp [toggle_recording_pause, hsp] at hp

/-- Claim C3: after recording starts at `t0`, for every sequence of
pause/resume toggles, the elapsed-time query (a) never returns a negative
value, (b) is non-decreasing in wall-clock time while recording,
(c) is constant in wall-clock time while paused, and (d) a resume toggle
folds the just-ended pause interval `now - paused_at` into the accumulated
pause duration and clears the pause timestamp. -/
theorem elapsed_time_invariants (t0 : ℚ) (ts : List ℚ) (now now2 : ℚ)
    (hle : now ≤ now2) :
    0 ≤ get_elapsed_time (runToggles (startState t0) ts) now ∧
    ((runToggles (startState t0) ts).paused = false →
      get_elapsed_time (runToggles (startState t0) ts) now
        ≤ get_elapsed_time (runToggles (startState t0) ts) now2) ∧
    ((runToggles (startState t0) ts).paused = true →
      get_elapsed_time (runToggles (startState t0) ts) now
        = get_elapsed_time (runToggles (startState t0) ts) now2) ∧
    ((runToggles (startState t0) ts).paused = true →
      ∀ p : ℚ, (runToggles (startState t0) ts).paused_at = some p →
        toggle_recording_pause (runToggles (startState t0) ts) now2
          = { start_time := (runToggles (startState t0) ts).start_time
              paused := false
              paused_at := none
              total_paused := (runToggles (startState t0) ts).total_paused + (now2 - p) }) := by
  have hinv := runToggles_invariant ts (startState t0) (by simp [startState])
  set s := runToggles (startState t0) ts with hs
  refine ⟨le_max_right _ _, ?_, ?_, ?_⟩
  · intro hp
    cases hst : s.start_time with
    | none => simp [get_elapsed_time, hst]
    | some st =>
      simp only [get_elapsed_time, hst, hp]
      norm_num
      rcases le_or_lt now (s.total_paused + st) with h | h
      · exact Or.inr h
      · exact Or.inl ⟨hle, by linarith⟩
  · intro hp
    obtain ⟨p, hpat⟩ := Option.isSome_iff_exists.mp (hinv hp)
    cases hst : s.start_time with
    | none => simp [get_elapsed_time, hst]
    | some st =>
      simp [get_elapsed_time, hst, hp, hpat]
      ring_nf
  · intro hp p hpat
    simp [toggle_recording_pause, hp, hpat]

/-- Witness for `elapsed_time_invariants`: start at 0, pause at 10, resume
at 15, pause again at 25; query at instants 30 and 40. -/
theorem elapsed_time_invariants_witness :
    0 ≤ get_elapsed_time (runToggles (startState 0) [10, 15, 25]) 30 ∧
    ((runToggles (startState 0) [10, 15, 25]).paused = false →
      get_elapsed_time (runToggles (startState 0) [10, 15, 25]) 30
        ≤ get_elapsed_time (runToggles (startState 0) [10, 15, 25]) 40) ∧
    ((runToggles (startState 0) [10, 15, 25]).paused = true →
      get_elapsed_time (runToggles (startState 0) [10, 15, 25]) 30
        = get_elapsed_time (runToggles (startState 0) [10, 15, 25]) 40) ∧
    ((runToggles (startState 0) [10, 15, 25]).paused = true →
      ∀ p : ℚ, (runToggles (startState 0) [10, 15, 25]).paused_at = some p →
        toggle_recording_pause (runToggles (startState 0) [10, 15, 25]) 40
          = { start_time := (runToggles (startState 0) [10, 15, 25]).start_time
              paused := false
              paused_at := none
              total_paused := (runToggles (startState 0) [10, 15, 25]).total_paused
                + (40 - p) }) :=
  elapsed_time_invariants 0 [10, 15, 25] 30 40 (by norm_num)

end RecordingClock

namespace RecordingTab

/-- `sound_chunk` as accumulated by the frame loop of `render_recording_tab`
(app.py, lines 252-260): an empty segment extended by each decoded frame in
arrival order.  A decoded frame is its list of PCM samples; pydub segment
concatenation is list append. -/
def buildSoundChunk (frames : List (List Int)) : List Int :=
  frames.foldl (fun acc f => acc ++ f) []

/-- One iteration of the recording loop of `render_recording_tab` (app.py,
lines 242-264) on a batch of received frames: only when not paused does the
loop decode the batch and append a non-empty `sound_chunk` to
`st.session_state["audio_buffer"]`. -/
def recording_loop_step (paused : Bool) (audio_buffer : List Int)
    (frames : List (List Int)) : List Int :=
  if paused then audio_buffer
  else
    let sound_chunk := buildSoundChunk frames
    if 0 < sound_chunk.length then audio_buffer ++ sound_chunk else audio_buffer

/-- Claim C5: audio frames arriving while the recording is paused are
silently discarded — for every frame batch received while paused, the audio
buffer and its length are unchanged, so paused-interval audio never appears
in the exported recording. -/
theorem paused_frames_discarded (audio_buffer : List Int) (frames : List (List Int)) :
    recording_loop_step true audio_buffer frames = audio_buffer ∧
    (recording_loop_step true audio_buffer frames).length = audio_buffer.length := by
  exact ⟨rfl, rfl⟩

end RecordingTab

namespace LiveTab

/-- The streaming-transcript slice of `st.session_state` in
`render_live_tab`: the committed transcript and the single current-interim
slot. -/
structure LiveTranscript where
  final_transcript : String
  interim_transcript : String
  deriving Repr, DecidableEq

/-- Processing of one result dequeued from `transcription_results_queue`
(ui/live_tab.py, lines 145-158): a final piece is appended (with a trailing
space) to the committed transcript and the interim slot is cleared; a
non-final piece only overwrites the interim slot. -/
def apply_result (s : LiveTranscript) (transcript_piece : String) (is_final : Bool) :
    LiveTranscript :=
  if is_final then
    { final_transcript := s.final_transcript ++ transcript_piece ++ " "
      interim_transcript := "" }
  else
    { s with interim_transcript := transcript_piece }

/-- Draining the results queue in arrival order. -/
def drain_results (s : LiveTranscript) : List (String × Bool) → LiveTranscript
  | [] => s
  | (piece, fin) :: rest => drain_results (apply_result s piece fin) rest

/-- The text shown in the transcript area (ui/live_tab.py, lines 166-189),
as a function of whether the recorder is still recording. -/
def display_transcript (is_recording : Bool) (s : LiveTranscript) : String :=
  if is_recording then
    if s.final_transcript = "" ∧ s.interim_transcript = "" then
      "🎧 Listening... (Start speaking to see transcription)"
    else if s.interim_transcript ≠ "" then
      s.final_transcript ++ s.interim_transcript ++ " ..."
    else
      s.final_transcript ++ "🎙️ (Continue speaking...)"
  else
    if s.final_transcript ≠ "" then s.final_transcript
    else "No transcription available"

/-- The number of occurrences of `pat` as a substring of `s` (counted at
every starting position). -/
def countOccs (pat : List Char) : List Char → Nat
  | [] => if pat.isPrefixOf ([] : List Char) then 1 else 0
  | c :: rest => (if pat.isPrefixOf (c :: rest) then 1 else 0) + countOccs pat rest

/-- Claim C4: an interim (non-final) result only overwrites the single
current-interim slot, and a final result appends permanently to the running
transcript while clearing the interim slot; consequently, after interim
event "ABC" followed by final event "ABC.", the displayed transcript (both
while still recording and after stopping) contains "ABC." exactly once. -/
theorem interim_overwritten_not_duplicated :
    (∀ (s : LiveTranscript) (piece : String),
      apply_result s piece false = { s with interim_transcript := piece }) ∧
    (∀ (s : LiveTranscript) (piece : String),
      apply_result s piece true
        = { final_transcript := s.final_transcript ++ piece ++ " "
            interim_transcript := "" }) ∧
    countOccs "ABC.".toList
      (display_transcript true
        (drain_results { final_transcript := "", interim_transcript := "" }
          [("ABC", false), ("ABC.", true)])).toList = 1 ∧
    countOccs "ABC.".toList
      (display_transcript false
        (drain_results { final_transcript := "", interim_transcript := "" }
          [("ABC", false), ("ABC.", true)])).toList = 1 := by
  refine ⟨fun s piece => rfl, fun s piece => rfl, by decide, by decide⟩

end LiveTab

namespace StreamingBridge

/-- The stop-relevant state of a live session: the recorder's
`is_recording` flag and the contents of `transcription_queue`, where a
queue entry is `some frame` (a raw ndarray pushed by the frame loop) or
`none`, the end-of-stream sentinel. -/
structure BridgeState where
  is_recording : Bool
  queue : List (Option (List Int))
  deriving Repr, DecidableEq

/-- One observation of the stop condition in the loop of `render_live_tab`
(ui/live_tab.py, lines 136-143): when `webrtc_ctx.audio_receiver` is gone,
the branch stops the recorder and pushes the `None` sentinel only if the
recorder is still recording; otherwise it does nothing. -/
def observe_stop (s : BridgeState) : BridgeState :=
  if s.is_recording then { is_recording := false, queue := s.queue ++ [none] }
  else s

/-- How many sentinels sit in the queue. -/
def sentinelCount (q : List (Option (List Int))) : Nat :=
  q.countP (·.isNone)

/-- numpy `astype(np.int16)` on one sample: wraparound into
`[-32768, 32767]`. -/
def toInt16 (x : Int) : Int := (x + 32768) % 65536 - 32768

/-- `_ndarray_to_linear16_bytes` on an integer-typed 1-D frame
(services/streaming_transcription_service.py, lines 18-28). -/
def ndarray_to_linear16 (frame : List Int) : List Int := frame.map toInt16

/-- The consumer loop of `audio_generator`
(services/streaming_transcription_service.py, lines 50-59): dequeue; on the
`None` sentinel, return (ending the generator cleanly); otherwise convert
the frame and yield a streaming request carrying its LINEAR16 bytes. -/
def audio_generator : List (Option (List Int)) → List (List Int)
  | [] => []
  | none :: _ => []
  | some c :: rest => ndarray_to_linear16 c :: audio_generator rest

theorem observe_stop_stopped (s : BridgeState) (h : s.is_recording = false) :
    observe_stop s = s := by
  simp [observe_stop, h]

theorem observe_stop_iterate_stopped (n : Nat) :
    ∀ s : BridgeState, s.is_recording = false → observe_stop^[n] s = s := by
  induction n with
  | zero => intro s _; rfl
  | succ n ih =>
    intro s h
    rw [Function.iterate_succ_apply, observe_stop_stopped s h, ih s h]

/-- Claim C6: per live session the end-of-stream sentinel is pushed exactly
once, even when the stop condition is observed any number of times — the
first observation stops the recorder and enqueues one sentinel, and every
later observation is a no-op (idempotent, and in particular never pushes a
second sentinel); and the streaming consumer exits its generator loop
cleanly at the sentinel, its output depending only on the frames queued
before it. -/
theorem sentinel_pushed_once (s : BridgeState) (n : Nat)
    (pre post : List (Option (List Int)))
    (hrec : s.is_recording = true) (hclean : sentinelCount s.queue = 0)
    (hn : 1 ≤ n) (hpre : sentinelCount pre = 0) :
    observe_stop (observe_stop s) = observe_stop s ∧
    sentinelCount (observe_stop^[n] s).queue = 1 ∧
    audio_generator (pre ++ none :: post) = audio_generator pre := by
  refine ⟨?_, ?_, ?_⟩
  · apply observe_stop_stopped
    simp [observe_stop, hrec]
  · obtain ⟨m, rfl⟩ : ∃ m, n = m + 1 := ⟨n - 1, by omega⟩
    rw [Function.iterate_succ_apply,
      observe_stop_iterate_stopped m (observe_stop s) (by simp [observe_stop, hrec])]
    simp [observe_stop, hrec, sentinelCount, List.countP_append] at hclean ⊢
    exact hclean
  · induction pre with
    | nil => rfl
    | cons hd tl ih =>
      cases hd with
      | none => simp [sentinelCount, List.countP_cons, Option.isNone] at hpre
      | some c =>
        have htl : sentinelCount tl = 0 := by
          simpa [sentinelCount, List.countP_cons, Option.isNone] using hpre
        show ndarray_to_linear16 c :: audio_generator (tl ++ none :: post)
            = ndarray_to_linear16 c :: audio_generator tl
        rw [ih htl]

/-- Witness for `sentinel_pushed_once`: a recording session with two queued
frames whose stop condition is observed three times, and a consumer queue
holding two frames before the sentinel and one after. -/
theorem sentinel_pushed_once_witness :
    observe_stop (observe_stop { is_recording := true, queue := [some [1], some [2]] })
      = observe_stop { is_recording := true, queue := [some [1], some [2]] } ∧
    sentinelCount
      (observe_stop^[3] { is_recording := true, queue := [some [1], some [2]] }).queue = 1 ∧
    audio_generator ([some [1], some [2]] ++ none :: [some [3]])
      = audio_generator [some [1], some [2]] :=
  sentinel_pushed_once { is_recording := true, queue := [some [1], some [2]] } 3
    [some [1], some [2]] [some [3]] rfl (by decide) (by decide) (by decide)

end StreamingBridge

namespace LiveRecorder

/-- The state of `AudioRecorder` (utils/live_recorder.py): the
`_is_recording` flag and the `_audio_buffer` pydub segment, modelled as its
list of PCM samples. -/
structure AudioRecorder where
  _is_recording : Bool
  _audio_buffer : List Int
  deriving Repr, DecidableEq

/-- The WAV container encoding of a sample buffer: the RIFF container magic
followed by the samples (header details beyond its presence are immaterial
to the claims). -/
def wavEncode (samples : List Int) : List Int := [82, 73, 70, 70] ++ samples

/-- An in-memory `BytesIO` holding WAV bytes, with its stream position. -/
structure WavStream where
  contents : List Int
  pos : Nat
  deriving Repr, DecidableEq

/-- Shallow embedding of `AudioRecorder.export_as_wav`
(utils/live_recorder.py, lines 40-52), returning the recorder (the method
assigns no field) together with its result.  `if not self._audio_buffer`
tests the segment's truthiness, i.e. whether its length is zero.  On a
non-empty buffer the method exports into a fresh `BytesIO`, seeks it to 0
and returns it; WAV-encoding a valid in-memory segment does not raise, so
the `except` branch is unreachable here. -/
def export_as_wav (r : AudioRecorder) : AudioRecorder × Option WavStream :=
  if r._audio_buffer.isEmpty then (r, none)
  else (r, some { contents := wavEncode r._audio_buffer, pos := 0 })

/-- Claim C10: `export_as_wav` returns `None` exactly when the internal
audio buffer is empty; on every non-empty buffer it returns a WAV-encoded
byte stream positioned at offset 0; it leaves the recorder's buffer and
recording state unchanged, and calling it again on that unchanged state
yields the same result. -/
theorem export_as_wav_correct (r : AudioRecorder) :
    (export_as_wav r).1 = r ∧
    ((export_as_wav r).2 = none ↔ r._audio_buffer = []) ∧
    (r._audio_buffer ≠ [] →
      (export_as_wav r).2 = some { contents := wavEncode r._audio_buffer, pos := 0 }) ∧
    export_as_wav (export_as_wav r).1 = export_as_wav r := by
  by_cases h : r._audio_buffer.isEmpty
  · have h0 : r._audio_buffer = [] := List.isEmpty_iff.mp h
    refine ⟨by simp [export_as_wav, h], by simp [export_as_wav, h, h0], ?_, by simp [export_as_wav, h]⟩
    intro hne
    exact absurd h0 hne
  · have h0 : r._audio_buffer ≠ [] := fun he => h (by simp [he])
    refine ⟨by simp [export_as_wav, h], by simp [export_as_wav, h, h0], ?_, by simp [export_as_wav, h]⟩
    intro _
    simp [export_as_wav, h]

/-- Witness for `export_as_wav_correct` on a concrete stopped recorder with
a two-sample buffer. -/
theorem export_as_wav_correct_witness :
    (export_as_wav { _is_recording := false, _audio_buffer := [1, 2] }).1
      = { _is_recording := false, _audio_buffer := [1, 2] } ∧
    (export_as_wav { _is_recording := false, _audio_buffer := [1, 2] }).2
      = some { contents := wavEncode [1, 2], pos := 0 } :=
  ⟨(export_as_wav_correct { _is_recording := false, _audio_buffer := [1, 2] }).1,
   (export_as_wav_correct { _is_recording := false, _audio_buffer := [1, 2] }).2.2.1
     (by decide)⟩

end LiveRecorder
